import Mathlib

/-!
# Verification of the clubjoy-booking order-to-booking pipeline

A shallow embedding of the core of the `clubjoy-booking` service:
the Shopify order → canonical booking normalization pipeline
(`ShopifyService` in the repository), the `/api/orders` route's filter
composition, the host-access middleware, and the BookingKit webhook
signature check.  JavaScript string/number builtins used by the code
(`toLowerCase`, `startsWith`, `includes`, `split`, `trim`, `replace`,
`parseInt`, `Math.min`, `||` on strings) are modelled explicitly as
`js*` functions over `List Char` so that every definition evaluates in
the kernel.  JS `null`/`undefined` string fields are `Option String`;
JS truthiness of a string option is `truthy` (`null` and `""` are falsy).
-/

namespace ClubJoy

/-- JS truthiness of a nullable string: `null`/`undefined` and `""` are falsy. -/
def truthy : Option String → Bool
  | none => false
  | some s => !s.isEmpty

/-- JS `a || b` on nullable strings: `b` when `a` is falsy. -/
def jsOr (a b : Option String) : Option String :=
  if truthy a then a else b

/-- JS `String.prototype.toLowerCase` (character-wise lowering). -/
def jsToLower (s : String) : String :=
  ⟨s.data.map Char.toLower⟩

/-- JS `String.prototype.startsWith`. -/
def jsStartsWith (s pre : String) : Bool :=
  pre.data.isPrefixOf s.data

/-- Substring scan over character lists (helper for `jsIncludes`). -/
def containsSub : List Char → List Char → Bool
  | hay, pat =>
    if pat.isPrefixOf hay then true
    else
      match hay with
      | [] => false
      | _ :: t => containsSub t pat

/-- JS `String.prototype.includes`. -/
def jsIncludes (s pat : String) : Bool :=
  containsSub s.data pat.data

/-- Whitespace test (covers the ASCII whitespace relevant to the inputs;
JS `\s` and `trim` additionally accept exotic Unicode spaces). -/
def isWs (c : Char) : Bool :=
  c.isWhitespace

/-- Split a character list on a single separator character, JS
`String.prototype.split` style (`"a,b,".split(',') = ["a","b",""]`). -/
def splitOnChar (c : Char) : List Char → List (List Char)
  | [] => [[]]
  | x :: xs =>
    let r := splitOnChar c xs
    if x == c then [] :: r
    else
      match r with
      | [] => [[x]]
      | h :: t => (x :: h) :: t

/-- JS `String.prototype.trim`. -/
def jsTrim (s : String) : String :=
  ⟨((s.data.dropWhile isWs).reverse.dropWhile isWs).reverse⟩

/-- Case-insensitive string equality as the JS code writes it:
`a.toLowerCase() === b.toLowerCase()`. -/
def ciEq (a b : String) : Bool :=
  jsToLower a == jsToLower b

/-! ## Schedule parser (`parseEventDate`, src/unnamed/part_001 lines 213-256) -/

/-- Model of the trailing-timezone regex `/\(([^)]+)\)$/`: the input must end
with `)`, and the captured group is the text after the first `(` that is not
followed by any further `)` before the final one (the leftmost position where
`\(([^)]+)\)$` can match). -/
def matchTrailingTz (s : String) : Option String :=
  match s.data.getLast? with
  | some ')' =>
    let body := s.data.dropLast
    let afterLastClose := (body.reverse.takeWhile (fun c => c ≠ ')')).reverse
    match afterLastClose.dropWhile (fun c => c ≠ '(') with
    | _ :: content => if content.isEmpty then none else some ⟨content⟩
    | [] => none
  | _ => none

/-- Two digits, a colon, two digits (`\d{2}:\d{2}`); returns the matched text
and the remainder. -/
def parseHHMM : List Char → Option (String × List Char)
  | a :: b :: c :: d :: e :: rest =>
    if a.isDigit && b.isDigit && c == ':' && d.isDigit && e.isDigit then
      some (⟨[a, b, c, d, e]⟩, rest)
    else none
  | _ => none

/-- After the comma: `\s*(\d{2}:\d{2})\s*-\s*(\d{2}:\d{2})`. -/
def matchTimesPart (cs : List Char) : Option (String × String) :=
  match parseHHMM (cs.dropWhile isWs) with
  | none => none
  | some (st, r1) =>
    match r1.dropWhile isWs with
    | '-' :: r2 =>
      match parseHHMM (r2.dropWhile isWs) with
      | none => none
      | some (en, _) => some (st, en)
    | _ => none

/-- Lazy scan for `/^(.+?),\s*(\d{2}:\d{2})\s*-\s*(\d{2}:\d{2})/`: the
shortest non-empty date part (whose characters must all be matchable by `.`,
i.e. no line terminators) followed by a comma and the two times.  `acc` holds
the date-part characters read so far, in reverse. -/
def findDateTimeSplit : List Char → List Char → Option (String × String × String)
  | _, [] => none
  | acc, c :: rest =>
    if c == ',' && !acc.isEmpty then
      match matchTimesPart rest with
      | some (st, en) => some (⟨acc.reverse⟩, st, en)
      | none => findDateTimeSplit (c :: acc) rest
    else if c == '\n' || c == '\r' || c == '\u2028' || c == '\u2029' then
      none
    else
      findDateTimeSplit (c :: acc) rest

/-- Model of the date/time regex match on the whole schedule string. -/
def matchDateTime (s : String) : Option (String × String × String) :=
  findDateTimeSplit [] s.data

/-- The twelve canonical three-letter month codes (case-insensitive),
as matched by moment's `MMM` token. -/
def monthNum (m : String) : Option Nat :=
  match jsToLower m with
  | "jan" => some 1
  | "feb" => some 2
  | "mar" => some 3
  | "apr" => some 4
  | "may" => some 5
  | "jun" => some 6
  | "jul" => some 7
  | "aug" => some 8
  | "sep" => some 9
  | "oct" => some 10
  | "nov" => some 11
  | "dec" => some 12
  | _ => none

/-- Numeric value of a digit list. -/
def natOfDigits (l : List Char) : Nat :=
  l.foldl (fun a c => 10 * a + (c.toNat - 48)) 0

/-- Gregorian leap year. -/
def isLeap (y : Nat) : Bool :=
  (y % 4 == 0 && y % 100 != 0) || y % 400 == 0

/-- Days in a month. -/
def daysInMonth (y m : Nat) : Nat :=
  if m == 2 then (if isLeap y then 29 else 28)
  else if m == 4 || m == 6 || m == 9 || m == 11 then 30
  else 31

/-- Model of moment's parse of the date part with format `DD MMM YYYY`
(space-separated day, case-insensitive month abbreviation, 4-digit year;
out-of-range days are invalid). -/
def momentParseDMY (datePart : String) : Option (Nat × Nat × Nat) :=
  match (splitOnChar ' ' datePart.data).filter (fun w => !w.isEmpty) with
  | [d, m, y] =>
    if d.all Char.isDigit && !d.isEmpty && d.length ≤ 2 &&
       y.all Char.isDigit && y.length == 4 then
      match monthNum ⟨m⟩ with
      | some mo =>
        let day := natOfDigits d
        let yr := natOfDigits y
        if 1 ≤ day && day ≤ daysInMonth yr mo then some (yr, mo, day) else none
      | none => none
    else none
  | _ => none

/-- Left-pad to two digits. -/
def pad2 (n : Nat) : String :=
  if n < 10 then "0" ++ toString n else toString n

/-- Model of `moment.tz(datePart, 'DD MMM YYYY', tz).format('YYYY-MM-DD')`:
a calendar-date formatter; an unparseable date formats as the string
`"Invalid date"` (moment's behaviour), never as `null`. -/
def momentFormatYMD (datePart : String) : String :=
  match momentParseDMY datePart with
  | some (y, m, d) => toString y ++ "-" ++ pad2 m ++ "-" ++ pad2 d
  | none => "Invalid date"

/-- Model of `eventDate.clone().add(moment.duration(t)).toISOString()`:
an absolute-instant rendering, `null` (here `none`) when the date is invalid.
The timezone-offset arithmetic of the tz database is abstracted; no claim
depends on the rendered value. -/
def momentToIso (datePart t : String) : Option String :=
  match momentParseDMY datePart with
  | some (y, m, d) => some (toString y ++ "-" ++ pad2 m ++ "-" ++ pad2 d ++ "T" ++ t ++ ":00")
  | none => none

/-- Result shape of `parseEventDate`.  The failure shape leaves
`startDateTime`/`endDateTime` absent (`none`). -/
structure ParsedSchedule where
  eventDate : Option String
  startTime : Option String
  endTime : Option String
  timezone : String
  startDateTime : Option String
  endDateTime : Option String
deriving DecidableEq

/-- The all-null shape returned for null/empty/unparseable input. -/
def nullSchedule : ParsedSchedule :=
  { eventDate := none, startTime := none, endTime := none,
    timezone := "UTC", startDateTime := none, endDateTime := none }

/-- `parseEventDate` (src/unnamed/part_001 lines 213-256).  A falsy input
returns the all-null shape; otherwise the trailing timezone is extracted
(defaulting to `"UTC"`), and failure of the date/time regex raises an error
that the surrounding `try/catch` converts to the all-null shape. -/
def parseEventDate : Option String → ParsedSchedule
  | none => nullSchedule
  | some s =>
    if s.isEmpty then nullSchedule
    else
      let tz := (matchTrailingTz s).getD "UTC"
      match matchDateTime s with
      | none => nullSchedule
      | some (datePart, startT, endT) =>
        { eventDate := some (momentFormatYMD datePart)
          startTime := some startT
          endTime := some endT
          timezone := tz
          startDateTime := momentToIso datePart startT
          endDateTime := momentToIso datePart endT }

/-! ## Raw order data model (Shopify order shape used by the service) -/

/-- A key/value entry of `note_attributes` or a line item's `properties`
(`{ name, value }` in Shopify).  A missing/null key is `none`. -/
structure Attr where
  name : Option String
  value : String
deriving DecidableEq

/-- A Shopify line item as the service reads it. -/
structure LineItem where
  name : Option String
  quantity : Nat
  price : String
  vendor : Option String
  product_id : Option Nat
  properties : List Attr
deriving DecidableEq

/-- The customer sub-record (all fields may be null). -/
structure Customer where
  first_name : Option String
  last_name : Option String
  email : Option String
  phone : Option String
deriving DecidableEq

/-- A raw Shopify order (the fields requested by `getOrders`). -/
structure RawOrder where
  id : Nat
  order_number : Nat
  name : String
  customer : Option Customer
  line_items : List LineItem
  note_attributes : List Attr
  created_at : String
  financial_status : String
  fulfillment_status : Option String
deriving DecidableEq

/-- A product metafield (`namespace` is renamed `nspace`, a Lean keyword). -/
structure Metafield where
  nspace : Option String
  key : Option String
  value : String
deriving DecidableEq

/-- What `getProductHost` can observe about a product: its metafields and its
comma-separated `tags` string.  The Product Metadata Store collaborator is a
function `Nat → Option ProductInfo`; `none` covers both a missing product and
a failed fetch, which the code's `try/catch` converts to "host not found". -/
structure ProductInfo where
  metafields : List Metafield
  tags : Option String
deriving DecidableEq

/-! ## Booking-qualification predicate (`hasCowlendarMetadata`, lines 93-112) -/

/-- `attr.name && attr.name.startsWith(pfx)`: the JS truthiness guard on the
key, then the prefix test. -/
def hasCowKey (pfx : String) (a : Attr) : Bool :=
  match a.name with
  | none => false
  | some n => !n.isEmpty && jsStartsWith n pfx

/-- `hasCowlendarMetadata`: a note-attribute hit returns `true`; otherwise,
with a non-empty `line_items`, the result is whether some line item property
hits; otherwise `false`.  (`[].some p = false` makes the JS null/length
guards collapse into the `any`.) -/
def hasCowlendarMetadata (pfx : String) (o : RawOrder) : Bool :=
  if o.note_attributes.any (hasCowKey pfx) then true
  else if o.line_items.isEmpty then false
  else o.line_items.any fun it => it.properties.any (hasCowKey pfx)

/-! ## Metadata extractor (`extractCowlendarMetadata`, lines 167-206) -/

/-- The accumulated Cowlendar metadata (all fields start as `null`). -/
structure CowMeta where
  eventData : Option String
  internalId : Option String
  integrity : Option String
deriving DecidableEq

/-- One step of the `processAttributes` loop: the `if/else` chain over a
single attribute, mutating the matching field. -/
def cowAttrStep (m : CowMeta) (a : Attr) : CowMeta :=
  match a.name with
  | none => m
  | some n =>
    if n == "__cow_internal_id" then { m with internalId := some a.value }
    else if n == "__cow_integrity" then { m with integrity := some a.value }
    else if n == "Date" then { m with eventData := some a.value }
    else if !n.isEmpty && jsIncludes (jsToLower n) "data" then
      { m with eventData := some a.value }
    else m

/-- `extractCowlendarMetadata`: scan note attributes first, then each line
item's properties in sequence order. -/
def extractCowlendarMetadata (o : RawOrder) : CowMeta :=
  let m1 := o.note_attributes.foldl cowAttrStep ⟨none, none, none⟩
  o.line_items.foldl (fun m it => it.properties.foldl cowAttrStep m) m1

/-- The combined attribute scan order: note attributes, then every line
item's properties in sequence. -/
def allOrderAttrs (o : RawOrder) : List Attr :=
  o.note_attributes ++ (o.line_items.map (fun it => it.properties)).flatten

/-! ## Provider resolution (lines 263-355) -/

/-- `extractEventName`: first line item's name, with the JS `||` fallback. -/
def extractEventName (o : RawOrder) : String :=
  match o.line_items.head? with
  | none => "Unknown Event"
  | some it =>
    match it.name with
    | some n => if n.isEmpty then "Unknown Event" else n
    | none => "Unknown Event"

/-- `extractVendorFromOrder`: `firstLineItem.vendor || null`. -/
def extractVendorFromOrder (o : RawOrder) : Option String :=
  match o.line_items.head? with
  | none => none
  | some it => jsOr it.vendor none

/-- `getProductHost`: find the first metafield whose key is truthy and either
case-insensitively `"host"`, exactly `"Host"`, or `"host"` in the `custom`
namespace; else fall back to the first tag whose trimmed lowercase form starts
with `"host:"`, returning the trimmed text after the first `:` of the raw tag;
any fetch failure (`none` from the store) is swallowed to `none`. -/
def getProductHost (store : Nat → Option ProductInfo) (pid : Nat) : Option String :=
  match store pid with
  | none => none
  | some info =>
    match info.metafields.find? (fun f =>
        match f.key with
        | none => false
        | some k =>
          !k.isEmpty &&
            (jsToLower k == "host" || k == "Host" ||
              (f.nspace == some "custom" && k == "host"))) with
    | some f => some f.value
    | none =>
      match info.tags with
      | none => none
      | some tags =>
        if tags.isEmpty then none
        else
          match (splitOnChar ',' tags.data).find?
              (fun t => jsStartsWith (jsToLower (jsTrim ⟨t⟩)) "host:") with
          | some t => some (jsTrim ⟨(splitOnChar ':' t).getD 1 []⟩)
          | none => none

/-- `extractHostFromOrder`: host of the first line item's product, `none` when
there are no line items or no product reference. -/
def extractHostFromOrder (store : Nat → Option ProductInfo) (o : RawOrder) : Option String :=
  match o.line_items.head? with
  | none => none
  | some it =>
    match it.product_id with
    | none => none
    | some pid => getProductHost store pid

/-! ## Order normalizer (`parseOrderWithCowlendar`, lines 119-160) -/

/-- The flattened line-item summary kept on the parsed order. -/
structure LineItemSummary where
  name : Option String
  quantity : Nat
  price : String
  vendor : Option String
  productId : Option Nat
deriving DecidableEq

/-- The canonical booking entity assembled by `parseOrderWithCowlendar`. -/
structure ParsedOrder where
  shopifyOrderId : Nat
  orderNumber : Nat
  orderName : String
  custFirstName : String
  custLastName : String
  custEmail : String
  custPhone : String
  eventName : String
  host : Option String
  vendor : Option String
  provider : Option String
  eventDate : Option String
  startTime : Option String
  endTime : Option String
  timezone : String
  cowlendarId : Option String
  cowlendarIntegrity : Option String
  createdAt : String
  financialStatus : String
  fulfillmentStatus : Option String
  lineItems : List LineItemSummary
deriving DecidableEq

/-- `order.customer?.f || ''`. -/
def custField (c : Option Customer) (f : Customer → Option String) : String :=
  match c with
  | none => ""
  | some cu => (f cu).getD ""

/-- `parseOrderWithCowlendar`: extract metadata, parse the schedule, resolve
host and vendor, and assemble the canonical record.  Both the `host` output
field and `provider` are `host || vendor` (line 140 and line 142). -/
def parseOrderWithCowlendar (store : Nat → Option ProductInfo) (o : RawOrder) : ParsedOrder :=
  let cow := extractCowlendarMetadata o
  let ev := parseEventDate cow.eventData
  let host := extractHostFromOrder store o
  let vendor := extractVendorFromOrder o
  { shopifyOrderId := o.id
    orderNumber := o.order_number
    orderName := o.name
    custFirstName := custField o.customer Customer.first_name
    custLastName := custField o.customer Customer.last_name
    custEmail := custField o.customer Customer.email
    custPhone := custField o.customer Customer.phone
    eventName := extractEventName o
    host := jsOr host vendor
    vendor := vendor
    provider := jsOr host vendor
    eventDate := ev.eventDate
    startTime := ev.startTime
    endTime := ev.endTime
    timezone := ev.timezone
    cowlendarId := cow.internalId
    cowlendarIntegrity := cow.integrity
    createdAt := o.created_at
    financialStatus := o.financial_status
    fulfillmentStatus := o.fulfillment_status
    lineItems := o.line_items.map fun it =>
      { name := it.name, quantity := it.quantity, price := it.price,
        vendor := it.vendor, productId := it.product_id } }

/-! ## Booking queries (`getEventOrders`, `getOrdersByProvider`, route filters) -/

/-- `getEventOrders`: keep the qualifying orders, parse each, and apply the
optional `host === hostFilter` filter (skipped when the filter is falsy). -/
def getEventOrders (pfx : String) (store : Nat → Option ProductInfo)
    (orders : List RawOrder) (hostFilter : Option String) : List ParsedOrder :=
  let parsed := (orders.filter (hasCowlendarMetadata pfx)).map (parseOrderWithCowlendar store)
  match hostFilter with
  | none => parsed
  | some hf => if hf.isEmpty then parsed else parsed.filter (fun p => p.host == some hf)

/-- The `getOrdersByProvider` filter predicate:
`(order.host && host ciEq name) || order.lineItems.some(vendor && vendor ciEq name)`. -/
def providerFilterPred (name : String) (p : ParsedOrder) : Bool :=
  (match p.host with
   | some h => !h.isEmpty && ciEq h name
   | none => false) ||
  (p.lineItems.any fun it =>
    match it.vendor with
    | some v => !v.isEmpty && ciEq v name
    | none => false)

/-- `getOrdersByProvider` (lines 402-425): all event orders, filtered by the
host-or-any-vendor predicate. -/
def getOrdersByProvider (pfx : String) (store : Nat → Option ProductInfo)
    (name : String) (orders : List RawOrder) : List ParsedOrder :=
  (getEventOrders pfx store orders none).filter (providerFilterPred name)

/-! ## The `/api/orders` query route (src/routes/orders.js lines 22-105) -/

/-- The filter fields of the `/api/orders` query string that are applied to
the booking sequence (`customer_email` and `status` are delegated to the
upstream fetch and never re-filtered locally). -/
structure FilterSpec where
  provider : Option String
  event_date : Option String
  date_from : Option String
  date_to : Option String
deriving DecidableEq

/-- Apply one optional filter field: skipped when the query value is absent
or falsy (the route guards each filter with a JS truthiness test). -/
def applyOptFilter (f : String → ParsedOrder → Bool) (v : Option String)
    (l : List ParsedOrder) : List ParsedOrder :=
  match v with
  | none => l
  | some s => if s.isEmpty then l else l.filter (f s)

/-- JS `order.eventDate >= d` for a nullable `eventDate`: string comparison
is lexicographic; a null date compares as `false` (`null >= "…"` is a
NaN comparison). -/
def jsGeDate (a : Option String) (b : String) : Bool :=
  match a with
  | none => false
  | some s => decide (b ≤ s)

/-- JS `order.eventDate <= d`, as in `jsGeDate`. -/
def jsLeDate (a : Option String) (b : String) : Bool :=
  match a with
  | none => false
  | some s => decide (s ≤ b)

/-- The route's filter pipeline over an already-fetched booking sequence:
provider filter (the `getOrdersByProvider` predicate), then `event_date`
equality, then `date_from`, then `date_to`, each applied only when present
and truthy. -/
def queryBookings (spec : FilterSpec) (bookings : List ParsedOrder) : List ParsedOrder :=
  applyOptFilter (fun d p => jsLeDate p.eventDate d) spec.date_to
    (applyOptFilter (fun d p => jsGeDate p.eventDate d) spec.date_from
      (applyOptFilter (fun d p => p.eventDate == some d) spec.event_date
        (applyOptFilter providerFilterPred spec.provider bookings)))

/-- The full local computation of `router.get('/')`: fetch via
`getOrdersByProvider` when a truthy `provider` is given, else via
`getEventOrders`, then the sequential date filters. -/
def ordersRouteQuery (pfx : String) (store : Nat → Option ProductInfo)
    (spec : FilterSpec) (raws : List RawOrder) : List ParsedOrder :=
  let base :=
    match spec.provider with
    | some pv =>
      if pv.isEmpty then getEventOrders pfx store raws none
      else getOrdersByProvider pfx store pv raws
    | none => getEventOrders pfx store raws none
  applyOptFilter (fun d p => jsLeDate p.eventDate d) spec.date_to
    (applyOptFilter (fun d p => jsGeDate p.eventDate d) spec.date_from
      (applyOptFilter (fun d p => p.eventDate == some d) spec.event_date base))

/-! ## Authentication middleware (src/middleware/auth.js) -/

/-- How a request authenticated: with the global key, or with a
host-specific key.  `getHostApiKeys` lowercases the `HOST_API_KEY_<NAME>`
suffix, so the stored identity of a `host` caller is always lowercase. -/
inductive AuthCaller where
  | global : AuthCaller
  | host : String → AuthCaller
deriving DecidableEq

/-- Outcome of `validateHostAccess`. -/
inductive AccessDecision where
  | granted : AccessDecision
  | denied403 : AccessDecision
deriving DecidableEq

/-- `validateHostAccess` (auth.js lines 83-109): global keys pass; a host key
passes iff its stored (lowercased) identity equals `hostName.toLowerCase()`. -/
def validateHostAccess (caller : AuthCaller) (hostName : String) : AccessDecision :=
  match caller with
  | .global => .granted
  | .host auth => if auth == jsToLower hostName then .granted else .denied403

/-- The JSON envelope of the `/api/orders` list response. -/
structure OrdersResponse where
  status : Nat
  success : Bool
  data : List ParsedOrder
deriving DecidableEq

/-- The `/api/orders` GET handler after `authenticateApiKey` has passed.
The handler body never reads the caller's identity (`validateHostAccess` is
imported by orders.js but not installed on this route), so `caller` is
unused and every authenticated caller reaches the same 200-success path. -/
def ordersRouteHandle (_caller : AuthCaller) (pfx : String)
    (store : Nat → Option ProductInfo) (spec : FilterSpec)
    (raws : List RawOrder) : OrdersResponse :=
  { status := 200, success := true, data := ordersRouteQuery pfx store spec raws }

/-! ## Limit handling (orders.js line 35, bookingkit.js line 403, getOrders) -/

/-- Model of JS `parseInt` in radix 10: skip leading whitespace, optional
sign, then the longest digit prefix; `none` is `NaN`.  (The automatic `0x`
hex prefix of `parseInt` is omitted; it is irrelevant to the clamp bound.) -/
def jsParseInt (s : String) : Option Int :=
  let cs := s.data.dropWhile isWs
  let signed : Int × List Char :=
    match cs with
    | '-' :: r => (-1, r)
    | '+' :: r => (1, r)
    | r => (1, r)
  let ds := signed.2.takeWhile Char.isDigit
  if ds.isEmpty then none else some (signed.1 * (natOfDigits ds : Int))

/-- `Math.min` against a constant, with NaN (`none`) propagation. -/
def mathMin (a : Option Int) (b : Int) : Option Int :=
  match a with
  | none => none
  | some x => some (min x b)

/-- orders.js line 35: `Math.min(parseInt(limit), 250)` with default `50`. -/
def ordersRouteLimit (limitParam : Option String) : Option Int :=
  mathMin (jsParseInt (limitParam.getD "50")) 250

/-- bookingkit.js line 403 (`GET /api/bookingkit/host/:hostName`):
`limit: parseInt(limit)` with default `50` — no clamp. -/
def bookingkitHostRouteLimit (limitParam : Option String) : Option Int :=
  jsParseInt (limitParam.getD "50")

/-- The limit `getOrders` sends to Shopify:
`{ ...{ limit: 50 }, ...params }` — the caller's value (even NaN) overrides
the default; no maximum is enforced here.  The outer `Option` distinguishes
"no limit key in params" from a provided (possibly NaN) value. -/
def getOrdersQueryLimit (provided : Option (Option Int)) : Option Int :=
  match provided with
  | none => some 50
  | some v => v

/-! ## Webhook signature verification (src/unnamed/part_000 lines 197-219) -/

/-- Remove the first occurrence of `pat` from a character list (JS
`s.replace(pat, '')` with a string pattern replaces only the first match). -/
def removeFirstOcc (pat : List Char) : List Char → List Char
  | [] => []
  | h :: t =>
    if pat.isPrefixOf (h :: t) then (h :: t).drop pat.length
    else h :: removeFirstOcc pat t

/-- `signature.replace('sha256=', '')`. -/
def stripSha256 (sig : String) : String :=
  ⟨removeFirstOcc "sha256=".data sig.data⟩

/-- `verifyWebhookSignature`: a falsy configured secret skips verification
and accepts everything; otherwise the hex HMAC of the payload is compared to
the stripped signature with `crypto.timingSafeEqual`, which throws on a
byte-length mismatch — the surrounding `try/catch` converts that to `false`.
The HMAC itself (`crypto.createHmac('sha256', …)`) is an external primitive,
passed in as `hmacHex`.  The Lean function is total by construction, matching
"returns a boolean and never throws". -/
def verifyWebhookSignature (secret : Option String) (hmacHex : String → String → String)
    (payload signature : String) : Bool :=
  match secret with
  | none => true
  | some sec =>
    if sec.isEmpty then true
    else
      let expected := hmacHex sec payload
      let provided := stripSha256 signature
      if expected.utf8ByteSize == provided.utf8ByteSize then expected == provided
      else false

/-! ## Claim-level predicates and helper definitions -/

/-- Key recognizer for `internalId` (`attr.name === '__cow_internal_id'`). -/
def isInternalIdKey (a : Attr) : Bool :=
  a.name == some "__cow_internal_id"

/-- Key recognizer for `integrity` (`attr.name === '__cow_integrity'`). -/
def isIntegrityKey (a : Attr) : Bool :=
  a.name == some "__cow_integrity"

/-- Key recognizer for `eventData` as the spec words it: the exact key
`"Date"`, or a key whose lowercase form contains the substring `"data"`. -/
def isEventDataKey (a : Attr) : Bool :=
  match a.name with
  | none => false
  | some n => n == "Date" || jsIncludes (jsToLower n) "data"

/-- Value of the last attribute matching `p` in a scan, `none` if none match. -/
def lastMatchValue (p : Attr → Bool) (l : List Attr) : Option String :=
  ((l.filter p).getLast?).map Attr.value

/-- The provider filter as the spec words it: case-insensitive equality with
the resolved provider, or with some line item's vendor. -/
def claimProviderPred (name : String) (p : ParsedOrder) : Bool :=
  (match p.provider with
   | some pr => ciEq pr name
   | none => false) ||
  (p.lineItems.any fun it =>
    match it.vendor with
    | some v => ciEq v name
    | none => false)

/-- The predicate an optional filter field imposes (true when the field is
absent or falsy). -/
def optPred (f : String → ParsedOrder → Bool) (v : Option String) (b : ParsedOrder) : Bool :=
  match v with
  | none => true
  | some s => if s.isEmpty then true else f s b

/-- Number of filter fields present in a spec. -/
def fieldsSet (s : FilterSpec) : Nat :=
  (if s.provider.isSome then 1 else 0) + (if s.event_date.isSome then 1 else 0) +
    (if s.date_from.isSome then 1 else 0) + (if s.date_to.isSome then 1 else 0)

/-- Projection of a filter spec to its `provider` field alone. -/
def onlyProvider (s : FilterSpec) : FilterSpec :=
  ⟨s.provider, none, none, none⟩

/-- Projection of a filter spec to its `event_date` field alone. -/
def onlyEventDate (s : FilterSpec) : FilterSpec :=
  ⟨none, s.event_date, none, none⟩

/-- Projection of a filter spec to its `date_from` field alone. -/
def onlyDateFrom (s : FilterSpec) : FilterSpec :=
  ⟨none, none, s.date_from, none⟩

/-- Projection of a filter spec to its `date_to` field alone. -/
def onlyDateTo (s : FilterSpec) : FilterSpec :=
  ⟨none, none, none, s.date_to⟩

/-! ## Concrete inputs used by counterexamples and witnesses -/

/-- A product store whose product 1 has a host metafield with the empty
string as its value (e.g. an emptied metafield; achievable likewise through
a bare `host:` tag). -/
def storeEmptyHost : Nat → Option ProductInfo := fun pid =>
  if pid == 1 then
    some { metafields := [{ nspace := some "custom", key := some "host", value := "" }],
           tags := none }
  else none

/-- A qualifying order whose first line item has vendor `"Other"` and points
at product 1. -/
def orderEmptyHost : RawOrder :=
  { id := 1, order_number := 1001, name := "#1001", customer := none,
    line_items := [{ name := some "Event A", quantity := 1, price := "5.00",
                     vendor := some "Other", product_id := some 1,
                     properties := [⟨some "__cow_internal_id", "i1"⟩] }],
    note_attributes := [], created_at := "2025-01-01", financial_status := "paid",
    fulfillment_status := none }

/-- A product store whose product 2 has host metafield `"Llamas"`. -/
def storeLlamas : Nat → Option ProductInfo := fun pid =>
  if pid == 2 then
    some { metafields := [{ nspace := none, key := some "Host", value := "Llamas" }],
           tags := none }
  else none

/-- A qualifying order with host metadata `"Llamas"` and first line item
vendor `"Other"`. -/
def orderLlamas : RawOrder :=
  { id := 2, order_number := 1002, name := "#1002", customer := none,
    line_items := [{ name := some "Llama Workshop", quantity := 1, price := "10.00",
                     vendor := some "Other", product_id := some 2,
                     properties := [⟨some "__cow_internal_id", "i2"⟩] }],
    note_attributes := [], created_at := "2025-01-02", financial_status := "paid",
    fulfillment_status := none }

/-- A store with no product data (every host lookup fails/misses). -/
def storeNone : Nat → Option ProductInfo := fun _ => none

/-- A qualifying order belonging to `"Another_Host"` (by vendor). -/
def orderAnotherHost : RawOrder :=
  { id := 9, order_number := 1009, name := "#1009", customer := none,
    line_items := [{ name := some "Tour", quantity := 1, price := "30.00",
                     vendor := some "Another_Host", product_id := none,
                     properties := [] }],
    note_attributes := [⟨some "__cow_internal_id", "z1"⟩],
    created_at := "2025-02-01", financial_status := "paid",
    fulfillment_status := none }

/-- The query a host-scoped `"llamas"` caller sends for another provider. -/
def specAnotherHost : FilterSpec :=
  ⟨some "Another_Host", none, none, none⟩

/-- A qualifying order with a schedule, used by the query-composition
witness. -/
def orderSched : RawOrder :=
  { id := 3, order_number := 1003, name := "#1003", customer := none,
    line_items := [{ name := some "Class", quantity := 2, price := "12.00",
                     vendor := some "Studio Marta", product_id := none,
                     properties := [⟨some "Date", "30 nov 2025, 17:00 - 18:30 (Europe/Rome)"⟩,
                                    ⟨some "__cow_internal_id", "i3"⟩] }],
    note_attributes := [], created_at := "2025-01-03", financial_status := "pending",
    fulfillment_status := none }

/-- A two-field filter spec (event date and date-from). -/
def specTwoFields : FilterSpec :=
  ⟨none, some "2025-11-30", some "2025-01-01", none⟩

/-! ## Helper lemmas -/

/-- A non-empty string has a non-empty character list. -/
theorem data_ne_nil_of_ne_empty (p : String) (h : p ≠ "") : p.data ≠ [] := by
  intro hd
  apply h
  cases p
  simp_all

/-- The empty string starts with no non-empty string. -/
theorem jsStartsWith_empty_left (pfx : String) (hp : pfx ≠ "") :
    jsStartsWith "" pfx = false := by
  have hd := data_ne_nil_of_ne_empty pfx hp
  unfold jsStartsWith
  cases hpd : pfx.data with
  | nil => exact absurd hpd hd
  | cons a t => simp [List.isPrefixOf]

/-- Lowercasing preserves non-emptiness. -/
theorem jsToLower_ne_empty (s : String) (h : s ≠ "") : jsToLower s ≠ "" := by
  intro he
  apply h
  have hd : s.data.map Char.toLower = [] := congrArg String.data he
  have hnil : s.data = [] := by simpa using hd
  cases s
  simp_all

/-- A schedule string rejected by the date/time pattern parses to the
all-null shape (the thrown error is caught). -/
theorem parseEventDate_fail_eq_null (s : String) (hng : matchDateTime s = none) :
    parseEventDate (some s) = nullSchedule := by
  unfold parseEventDate
  by_cases he : s.isEmpty
  · simp [he]
  · simp [he, hng]

/-- The `provider` field of a parsed order is `host || vendor`. -/
theorem parsed_provider (store : Nat → Option ProductInfo) (o : RawOrder) :
    (parseOrderWithCowlendar store o).provider =
      jsOr (extractHostFromOrder store o) (extractVendorFromOrder o) := rfl

/-- The output `host` field of a parsed order coincides with `provider`
(both are `host || vendor`, lines 140 and 142 of the source). -/
theorem parsed_host_eq_provider (store : Nat → Option ProductInfo) (o : RawOrder) :
    (parseOrderWithCowlendar store o).host = (parseOrderWithCowlendar store o).provider := rfl

/-- For a non-empty configured prefix, the `hasCowKey` test is exactly "the
attribute has a key starting with the prefix". -/
theorem hasCowKey_iff (pfx : String) (hp : pfx ≠ "") (a : Attr) :
    hasCowKey pfx a = true ↔ ∃ n, a.name = some n ∧ jsStartsWith n pfx = true := by
  cases a with
  | mk nm v =>
    cases nm with
    | none => simp [hasCowKey]
    | some n =>
      simp only [hasCowKey, Bool.and_eq_true, Bool.not_eq_true']
      constructor
      · rintro ⟨-, hs⟩
        exact ⟨n, rfl, hs⟩
      · rintro ⟨n', hn', hs⟩
        obtain rfl : n = n' := by simpa using hn'
        cases hie : n.isEmpty with
        | false => exact ⟨rfl, hs⟩
        | true =>
          obtain rfl : n = "" := (String.isEmpty_iff n).mp hie
          rw [jsStartsWith_empty_left pfx hp] at hs
          exact absurd hs (by simp)

/-! ## Claim C1 (corrected): provider precedence -/

/-- C1 counterexample: a non-null but empty host (`""` from product
metadata) does **not** take precedence — JS `||` treats it as falsy, so the
resolved provider is the vendor, not the host. -/
theorem c1_counterexample_empty_host :
    extractHostFromOrder storeEmptyHost orderEmptyHost = some "" ∧
    (parseOrderWithCowlendar storeEmptyHost orderEmptyHost).provider = some "Other" ∧
    ¬(parseOrderWithCowlendar storeEmptyHost orderEmptyHost).provider = some "" := by
  decide

/-- C1 (amended): the resolved provider equals the host when the host is
non-null **and non-empty**; else the first line item's vendor when that is
non-null and non-empty; else null; and a qualifying order is always included
in the (unfiltered) event-order results, never dropped. -/
theorem c1_provider_resolution_amended (store : Nat → Option ProductInfo) (pfx : String)
    (o : RawOrder) (orders : List RawOrder)
    (hmem : o ∈ orders) (hq : hasCowlendarMetadata pfx o = true) :
    (∀ h, extractHostFromOrder store o = some h → ¬h.isEmpty →
      (parseOrderWithCowlendar store o).provider = some h) ∧
    ((extractHostFromOrder store o = none ∨ extractHostFromOrder store o = some "") →
      ∀ it rest, o.line_items = it :: rest → ∀ v, it.vendor = some v → ¬v.isEmpty →
        (parseOrderWithCowlendar store o).provider = some v) ∧
    ((extractHostFromOrder store o = none ∨ extractHostFromOrder store o = some "") →
      (∀ it rest, o.line_items = it :: rest → it.vendor = none ∨ it.vendor = some "") →
        (parseOrderWithCowlendar store o).provider = none) ∧
    parseOrderWithCowlendar store o ∈ getEventOrders pfx store orders none := by
  have hvend : ∀ (_ : extractHostFromOrder store o = none ∨
      extractHostFromOrder store o = some ""),
      (parseOrderWithCowlendar store o).provider = extractVendorFromOrder o := by
    intro hf
    rw [parsed_provider]
    have hemp : ("" : String).isEmpty = true := rfl
    rcases hf with hf | hf <;> simp [hf, jsOr, truthy, hemp]
  refine ⟨?_, ?_, ?_, ?_⟩
  · intro h hh hne
    rw [parsed_provider, hh]
    simp [jsOr, truthy, hne]
  · intro hf it rest hli v hv hvne
    rw [hvend hf]
    simp [extractVendorFromOrder, hli, hv, jsOr, truthy, hvne]
  · intro hf hv
    rw [hvend hf]
    cases hl : o.line_items with
    | nil => simp [extractVendorFromOrder, hl]
    | cons it rest =>
      have hemp : ("" : String).isEmpty = true := rfl
      rcases hv it rest hl with h0 | h0 <;>
        simp [extractVendorFromOrder, hl, h0, jsOr, truthy, hemp]
  · simp only [getEventOrders]
    exact List.mem_map.mpr ⟨o, List.mem_filter.mpr ⟨hmem, hq⟩, rfl⟩

/-- C1 witness: host metadata `"Llamas"` beats vendor `"Other"`, and the
parsed order appears in the results. -/
theorem c1_provider_resolution_witness :
    (parseOrderWithCowlendar storeLlamas orderLlamas).provider = some "Llamas" ∧
    parseOrderWithCowlendar storeLlamas orderLlamas ∈
      getEventOrders "__cow_" storeLlamas [orderLlamas] none := by
  have h := c1_provider_resolution_amended storeLlamas "__cow_" orderLlamas [orderLlamas]
    (by simp) (by decide)
  exact ⟨h.1 "Llamas" (by decide) (by decide), h.2.2.2⟩

/-! ## Claim C3 (confirmed): schedule parser totality -/

/-- C3: the parser is total; null and empty input give the all-null shape,
any string rejected by the `"<datepart>, <HH:MM> - <HH:MM>"` pattern gives
the all-null shape, and whenever `eventDate` is null every other derived
field except `timezone` is null. -/
theorem c3_parser_total_allnull (s : String) (hng : matchDateTime s = none) :
    parseEventDate none = nullSchedule ∧
    parseEventDate (some "") = nullSchedule ∧
    parseEventDate (some s) = nullSchedule ∧
    ∀ t : Option String, (parseEventDate t).eventDate = none →
      (parseEventDate t).startTime = none ∧ (parseEventDate t).endTime = none ∧
      (parseEventDate t).startDateTime = none ∧ (parseEventDate t).endDateTime = none := by
  refine ⟨rfl, by decide, parseEventDate_fail_eq_null s hng, ?_⟩
  intro t h
  cases t with
  | none => exact ⟨rfl, rfl, rfl, rfl⟩
  | some u =>
    by_cases he : u.isEmpty
    · simp [parseEventDate, he, nullSchedule]
    · cases hm : matchDateTime u with
      | none => simp [parseEventDate, he, hm, nullSchedule]
      | some x =>
        obtain ⟨dp, st, en⟩ := x
        simp [parseEventDate, he, hm] at h

/-- C3 witness: `"garbage"` fails the pattern and collapses to the all-null
shape. -/
theorem c3_parser_total_witness :
    matchDateTime "garbage" = none ∧ parseEventDate (some "garbage") = nullSchedule :=
  ⟨by decide, (c3_parser_total_allnull "garbage" (by decide)).2.2.1⟩

/-! ## Claim C6 (corrected): timezone handling -/

/-- C6 counterexample: `"Not/A_Zone"` is not an IANA timezone name, yet the
parser returns it verbatim in `timezone` (and the parse still succeeds);
it does not fall back to `"UTC"`. -/
theorem c6_counterexample_tz_passthrough :
    (parseEventDate (some "30 nov 2025, 17:00 - 18:30 (Not/A_Zone)")).timezone = "Not/A_Zone" ∧
    (parseEventDate (some "30 nov 2025, 17:00 - 18:30 (Not/A_Zone)")).timezone ≠ "UTC" ∧
    (parseEventDate (some "30 nov 2025, 17:00 - 18:30 (Not/A_Zone)")).eventDate =
      some "2025-11-30" := by
  decide

/-- C6 (amended): the parser performs no IANA validation; whenever the
date/time pattern matches, the `timezone` field is the trailing
parenthesized name verbatim (whatever it is), defaulting to `"UTC"` only
when that trailing component is absent or malformed, or when the overall
parse fails. -/
theorem c6_timezone_amended (s : String) (h : ¬s.isEmpty) :
    (parseEventDate (some s)).timezone =
      if (matchDateTime s).isSome then (matchTrailingTz s).getD "UTC" else "UTC" := by
  unfold parseEventDate
  simp only [h, if_false]
  cases hm : matchDateTime s with
  | none => simp [nullSchedule]
  | some x =>
    obtain ⟨dp, st, en⟩ := x
    simp

/-- C6 witness: a recognized name is likewise passed through. -/
theorem c6_timezone_witness :
    (parseEventDate (some "30 nov 2025, 17:00 - 18:30 (Europe/Rome)")).timezone =
      if (matchDateTime "30 nov 2025, 17:00 - 18:30 (Europe/Rome)").isSome then
        (matchTrailingTz "30 nov 2025, 17:00 - 18:30 (Europe/Rome)").getD "UTC"
      else "UTC" :=
  c6_timezone_amended "30 nov 2025, 17:00 - 18:30 (Europe/Rome)" (by decide)

/-! ## Claim C8 (code bug): missing host check on the orders route -/

/-- C8: `validateHostAccess` does implement the case-insensitive boundary
(first three conjuncts), but the `/api/orders` route never installs it: a
host-scoped `"llamas"` caller requesting `provider=Another_Host` receives a
200 success carrying Another_Host's booking instead of a 403. -/
theorem c8_orders_route_missing_host_check :
    validateHostAccess (AuthCaller.host "llamas") "Another_Host" = AccessDecision.denied403 ∧
    validateHostAccess (AuthCaller.host "llamas") "Llamas" = AccessDecision.granted ∧
    validateHostAccess AuthCaller.global "Another_Host" = AccessDecision.granted ∧
    ordersRouteHandle (AuthCaller.host "llamas") "__cow_" storeNone specAnotherHost
        [orderAnotherHost] =
      { status := 200, success := true,
        data := [parseOrderWithCowlendar storeNone orderAnotherHost] } ∧
    (parseOrderWithCowlendar storeNone orderAnotherHost).provider = some "Another_Host" := by
  decide

/-! ## Claim C9 (corrected): limit clamping -/

/-- C9 counterexample: the `/api/bookingkit/host/:hostName` query path passes
the caller's `parseInt(limit)` to the store fetch unclamped — a requested
limit of 1000 reaches the fetch boundary as 1000. -/
theorem c9_counterexample_bookingkit_unclamped :
    getOrdersQueryLimit (some (bookingkitHostRouteLimit (some "1000"))) = some 1000 ∧
    ¬((1000 : Int) ≤ 250) := by
  decide

/-- C9 (amended): on the `/api/orders` path every parsed requested limit is
clamped to `min(limit, 250)` before the fetch (so 1000 becomes 250 there),
but the fetch layer itself enforces no maximum. -/
theorem c9_limit_clamp_amended (s : String) (n : Int) (h : jsParseInt s = some n) :
    ordersRouteLimit (some s) = some (min n 250) ∧
    (∀ m : Int, ordersRouteLimit (some s) = some m → m ≤ 250) ∧
    getOrdersQueryLimit (some (ordersRouteLimit (some s))) = some (min n 250) ∧
    ordersRouteLimit (some "1000") = some 250 := by
  have h1 : ordersRouteLimit (some s) = some (min n 250) := by
    simp [ordersRouteLimit, mathMin, h]
  refine ⟨h1, ?_, ?_, by decide⟩
  · intro m hm
    rw [h1] at hm
    cases hm
    exact min_le_right _ _
  · simp [getOrdersQueryLimit, h1]

/-- C9 witness: the amended statement at the requested limit `"1000"`. -/
theorem c9_limit_clamp_witness :
    ordersRouteLimit (some "1000") = some (min 1000 250) ∧
    (∀ m : Int, ordersRouteLimit (some "1000") = some m → m ≤ 250) ∧
    getOrdersQueryLimit (some (ordersRouteLimit (some "1000"))) = some (min 1000 250) ∧
    ordersRouteLimit (some "1000") = some 250 :=
  c9_limit_clamp_amended "1000" 1000 (by decide)

/-! ## Claim C10 (confirmed): webhook verification -/

/-- C10: with no configured secret every payload/signature pair verifies;
with a secret, a stripped signature whose byte length differs from the hex
HMAC makes `timingSafeEqual` throw, which the code maps to `false`; the
function is total Boolean by construction. -/
theorem c10_webhook_skip_and_error_map (hmacHex : String → String → String)
    (payload signature sec : String) (hsec : ¬sec.isEmpty)
    (hlen : (hmacHex sec payload).utf8ByteSize ≠ (stripSha256 signature).utf8ByteSize) :
    (∀ p g, verifyWebhookSignature none hmacHex p g = true) ∧
    verifyWebhookSignature (some sec) hmacHex payload signature = false := by
  refine ⟨fun p g => rfl, ?_⟩
  simp [verifyWebhookSignature, hsec, hlen]

/-- C10 witness: a concrete HMAC function and a wrong-length signature. -/
theorem c10_webhook_witness :
    verifyWebhookSignature none (fun _ _ => "ab") "p" "s" = true ∧
    verifyWebhookSignature (some "k") (fun _ _ => "ab") "p" "abc" = false :=
  ⟨(c10_webhook_skip_and_error_map (fun _ _ => "ab") "p" "abc" "k" (by decide) (by decide)).1 "p" "s",
   (c10_webhook_skip_and_error_map (fun _ _ => "ab") "p" "abc" "k" (by decide) (by decide)).2⟩

/-! ## Claim C2 (confirmed): booking qualification -/

/-- C2: an order qualifies iff some note attribute or some line-item
property has a key starting with the configured prefix; a non-qualifying
order is excluded from the booking-oriented selection. -/
theorem c2_qualification_iff (pfx : String) (hp : pfx ≠ "") (o : RawOrder)
    (orders : List RawOrder) :
    (hasCowlendarMetadata pfx o = true ↔
      (∃ a ∈ o.note_attributes, ∃ n, a.name = some n ∧ jsStartsWith n pfx = true) ∨
      (∃ it ∈ o.line_items, ∃ a ∈ it.properties, ∃ n, a.name = some n ∧ jsStartsWith n pfx = true)) ∧
    (hasCowlendarMetadata pfx o = false → o ∉ orders.filter (hasCowlendarMetadata pfx)) := by
  constructor
  · unfold hasCowlendarMetadata
    by_cases h1 : o.note_attributes.any (hasCowKey pfx)
    · simp only [h1, if_true, true_iff]
      left
      simpa [List.any_eq_true, hasCowKey_iff pfx hp] using h1
    · simp only [h1, if_false]
      have hno : ¬∃ a ∈ o.note_attributes, ∃ n, a.name = some n ∧ jsStartsWith n pfx = true := by
        simpa [List.any_eq_true, hasCowKey_iff pfx hp] using h1
      by_cases h2 : o.line_items.isEmpty
      · have hn : o.line_items = [] := by simpa [List.isEmpty_iff] using h2
        simp [h2, hno, hn]
      · simp only [h2, if_false]
        simp [List.any_eq_true, hasCowKey_iff pfx hp, hno]
  · intro hfalse hmem
    have hh := (List.mem_filter.mp hmem).2
    rw [hfalse] at hh
    exact absurd hh (by simp)

/-- C2 witness: a qualifying order (line-item property `__cow_internal_id`)
and an order with no prefixed key, excluded from the selection. -/
theorem c2_qualification_witness :
    hasCowlendarMetadata "__cow_" orderLlamas = true ∧
    hasCowlendarMetadata "__cow_"
      { orderLlamas with line_items := [], note_attributes := [] } = false ∧
    ({ orderLlamas with line_items := [], note_attributes := [] } : RawOrder) ∉
      ([orderLlamas] : List RawOrder).filter (hasCowlendarMetadata "__cow_") := by
  refine ⟨?_, by decide, ?_⟩
  · refine (c2_qualification_iff "__cow_" (by decide) orderLlamas [orderLlamas]).1.mpr (Or.inr ?_)
    refine ⟨{ name := some "Llama Workshop", quantity := 1, price := "10.00",
              vendor := some "Other", product_id := some 2,
              properties := [⟨some "__cow_internal_id", "i2"⟩] }, by decide,
            ⟨some "__cow_internal_id", "i2"⟩, by decide, "__cow_internal_id", rfl, by decide⟩
  · exact (c2_qualification_iff "__cow_" (by decide)
      { orderLlamas with line_items := [], note_attributes := [] } [orderLlamas]).2 (by decide)

/-! ## Claim C4 (confirmed): last-wins metadata extraction -/

/-- `cowAttrStep` writes `internalId` exactly on `__cow_internal_id` keys. -/
theorem cowStep_internalId (m : CowMeta) (a : Attr) :
    (cowAttrStep m a).internalId = if isInternalIdKey a then some a.value else m.internalId := by
  cases a with
  | mk nm v =>
    cases nm with
    | none => rfl
    | some n =>
      by_cases h1 : n = "__cow_internal_id"
      · subst h1; rfl
      · by_cases h2 : n = "__cow_integrity"
        · subst h2; rfl
        · by_cases h3 : n = "Date"
          · subst h3; rfl
          · have hb1 : (n == "__cow_internal_id") = false := beq_eq_false_iff_ne.mpr h1
            have hb2 : (n == "__cow_integrity") = false := beq_eq_false_iff_ne.mpr h2
            have hb3 : (n == "Date") = false := beq_eq_false_iff_ne.mpr h3
            have hbo : (some n == some "__cow_internal_id") = false := by simp [h1]
            simp only [cowAttrStep, isInternalIdKey, hb1, hb2, hb3, hbo, if_false,
              Bool.false_eq_true]
            split <;> rfl

/-- `cowAttrStep` writes `integrity` exactly on `__cow_integrity` keys. -/
theorem cowStep_integrity (m : CowMeta) (a : Attr) :
    (cowAttrStep m a).integrity = if isIntegrityKey a then some a.value else m.integrity := by
  cases a with
  | mk nm v =>
    cases nm with
    | none => rfl
    | some n =>
      by_cases h1 : n = "__cow_internal_id"
      · subst h1; rfl
      · by_cases h2 : n = "__cow_integrity"
        · subst h2; rfl
        · by_cases h3 : n = "Date"
          · subst h3; rfl
          · have hb1 : (n == "__cow_internal_id") = false := beq_eq_false_iff_ne.mpr h1
            have hb2 : (n == "__cow_integrity") = false := beq_eq_false_iff_ne.mpr h2
            have hb3 : (n == "Date") = false := beq_eq_false_iff_ne.mpr h3
            have hbo : (some n == some "__cow_integrity") = false := by simp [h2]
            simp only [cowAttrStep, isIntegrityKey, hb1, hb2, hb3, hbo, if_false,
              Bool.false_eq_true]
            split <;> rfl

/-- `cowAttrStep` writes `eventData` exactly on keys matching the spec's
"`Date` or lowercase contains `data`" rule: the `if/else` chain's extra
guards change nothing because neither `__cow_` key contains `data` and the
empty key contains no `data`. -/
theorem cowStep_eventData (m : CowMeta) (a : Attr) :
    (cowAttrStep m a).eventData = if isEventDataKey a then some a.value else m.eventData := by
  cases a with
  | mk nm v =>
    cases nm with
    | none => rfl
    | some n =>
      by_cases h1 : n = "__cow_internal_id"
      · subst h1; rfl
      · by_cases h2 : n = "__cow_integrity"
        · subst h2; rfl
        · by_cases h3 : n = "Date"
          · subst h3; rfl
          · have hb1 : (n == "__cow_internal_id") = false := beq_eq_false_iff_ne.mpr h1
            have hb2 : (n == "__cow_integrity") = false := beq_eq_false_iff_ne.mpr h2
            have hb3 : (n == "Date") = false := beq_eq_false_iff_ne.mpr h3
            by_cases h4 : n = ""
            · subst h4; rfl
            · have hie : n.isEmpty = false := by
                cases hie : n.isEmpty with
                | false => rfl
                | true => exact absurd ((String.isEmpty_iff n).mp hie) h4
              simp only [cowAttrStep, isEventDataKey, hb1, hb2, hb3, hie, if_false,
                Bool.false_eq_true, Bool.not_false, Bool.true_and, Bool.false_or]
              cases hinc : jsIncludes (jsToLower n) "data" <;> simp [hinc]

/-- A left fold of `cowAttrStep` projects, per field, to the value of the
last matching attribute (last write wins). -/
theorem foldl_cowStep_lastMatch (proj : CowMeta → Option String) (p : Attr → Bool)
    (hstep : ∀ m a, proj (cowAttrStep m a) = if p a then some a.value else proj m)
    (l : List Attr) (m : CowMeta) :
    proj (l.foldl cowAttrStep m) =
      match (l.filter p).getLast? with
      | some a => some a.value
      | none => proj m := by
  induction l using List.reverseRecOn with
  | nil => simp
  | append_singleton l a ih =>
    rw [List.foldl_append]
    simp only [List.foldl_cons, List.foldl_nil, hstep]
    rw [List.filter_append]
    cases hp : p a with
    | true =>
      simp only [List.filter_cons, hp, if_true, List.filter_nil]
      rw [List.getLast?_concat]
    | false =>
      simp only [List.filter_cons, hp, List.filter_nil, List.append_nil]
      simpa using ih

/-- The extractor is the single fold over note attributes followed by every
line item's properties in sequence order. -/
theorem extract_eq_foldl (o : RawOrder) :
    extractCowlendarMetadata o = (allOrderAttrs o).foldl cowAttrStep ⟨none, none, none⟩ := by
  unfold extractCowlendarMetadata allOrderAttrs
  rw [List.foldl_append]
  generalize o.note_attributes.foldl cowAttrStep ⟨none, none, none⟩ = m0
  induction o.line_items generalizing m0 with
  | nil => rfl
  | cons it rest ih =>
    simp only [List.foldl_cons, List.map_cons, List.flatten_cons, List.foldl_append]
    exact ih _

/-- C4: extraction scans note attributes then each line item's properties in
order, and each output field equals the value of the last matching attribute
of that combined scan (absent fields stay null); the extractor is a pure
total function of the order. -/
theorem c4_extraction_last_wins (o : RawOrder) :
    extractCowlendarMetadata o = (allOrderAttrs o).foldl cowAttrStep ⟨none, none, none⟩ ∧
    (extractCowlendarMetadata o).internalId = lastMatchValue isInternalIdKey (allOrderAttrs o) ∧
    (extractCowlendarMetadata o).integrity = lastMatchValue isIntegrityKey (allOrderAttrs o) ∧
    (extractCowlendarMetadata o).eventData = lastMatchValue isEventDataKey (allOrderAttrs o) := by
  refine ⟨extract_eq_foldl o, ?_, ?_, ?_⟩
  · rw [extract_eq_foldl o,
      foldl_cowStep_lastMatch CowMeta.internalId isInternalIdKey cowStep_internalId]
    unfold lastMatchValue
    cases (List.filter isInternalIdKey (allOrderAttrs o)).getLast? <;> simp
  · rw [extract_eq_foldl o,
      foldl_cowStep_lastMatch CowMeta.integrity isIntegrityKey cowStep_integrity]
    unfold lastMatchValue
    cases (List.filter isIntegrityKey (allOrderAttrs o)).getLast? <;> simp
  · rw [extract_eq_foldl o,
      foldl_cowStep_lastMatch CowMeta.eventData isEventDataKey cowStep_eventData]
    unfold lastMatchValue
    cases (List.filter isEventDataKey (allOrderAttrs o)).getLast? <;> simp

/-! ## Claim C5 (confirmed): provider filter union -/

/-- `extractVendorFromOrder` yields `none` or a non-empty vendor (the JS
`|| null` coerces the empty string to null). -/
theorem extractVendor_truthy (o : RawOrder) :
    extractVendorFromOrder o = none ∨
    ∃ v, extractVendorFromOrder o = some v ∧ v.isEmpty = false := by
  unfold extractVendorFromOrder
  cases o.line_items.head? with
  | none => exact Or.inl rfl
  | some it =>
    cases hv : it.vendor with
    | none => left; simp [jsOr, truthy, hv]
    | some v =>
      cases hie : v.isEmpty with
      | false => right; exact ⟨v, by simp [jsOr, truthy, hv, hie], hie⟩
      | true => left; simp [jsOr, truthy, hv, hie]

/-- The resolved provider is `none` or a non-empty string. -/
theorem parsed_provider_truthy (store : Nat → Option ProductInfo) (o : RawOrder) :
    (parseOrderWithCowlendar store o).provider = none ∨
    ∃ h, (parseOrderWithCowlendar store o).provider = some h ∧ h.isEmpty = false := by
  rw [parsed_provider]
  cases hh : extractHostFromOrder store o with
  | none =>
    simp only [jsOr, truthy, Bool.not_eq_true', if_false]
    exact extractVendor_truthy o
  | some h =>
    cases hie : h.isEmpty with
    | false => right; exact ⟨h, by simp [jsOr, truthy, hie], hie⟩
    | true =>
      simp only [jsOr, truthy, hie, Bool.not_true, if_false]
      exact extractVendor_truthy o

/-- On pipeline-produced orders (where the output `host` field equals
`provider`), the code's host-or-vendor filter equals the spec's
provider-or-vendor predicate, for a non-empty requested name. -/
theorem providerPred_eq_claimPred (name : String) (hn : name ≠ "")
    (store : Nat → Option ProductInfo) (o : RawOrder) :
    providerFilterPred name (parseOrderWithCowlendar store o) =
      claimProviderPred name (parseOrderWithCowlendar store o) := by
  have hlow : jsToLower name ≠ "" := jsToLower_ne_empty name hn
  have hvend : ∀ (its : List LineItemSummary),
      (its.any fun it => match it.vendor with
        | some v => !v.isEmpty && ciEq v name
        | none => false) =
      (its.any fun it => match it.vendor with
        | some v => ciEq v name
        | none => false) := by
    intro its
    have hfun : (fun (it : LineItemSummary) => match it.vendor with
        | some v => !v.isEmpty && ciEq v name
        | none => false) =
        (fun (it : LineItemSummary) => match it.vendor with
        | some v => ciEq v name
        | none => false) := by
      funext it
      cases hv : it.vendor with
      | none => rfl
      | some v =>
        cases hie : v.isEmpty with
        | false => simp [hv, hie]
        | true =>
          have hv0 : v = "" := (String.isEmpty_iff v).mp hie
          subst hv0
          have hci : ciEq "" name = false := by
            unfold ciEq
            exact beq_eq_false_iff_ne.mpr (fun h => hlow h.symm)
          simp [hv, hci]
    rw [hfun]
  unfold providerFilterPred claimProviderPred
  rw [parsed_host_eq_provider]
  rcases parsed_provider_truthy store o with hp0 | ⟨h, hp0, hie⟩
  · rw [hp0]
    simp [hvend]
  · rw [hp0]
    simp [hie, hvend]

/-- Existential reading of `claimProviderPred`. -/
theorem claimPred_iff (name : String) (p : ParsedOrder) :
    claimProviderPred name p = true ↔
      ((∃ pr, p.provider = some pr ∧ ciEq pr name = true) ∨
       (∃ it ∈ p.lineItems, ∃ v, it.vendor = some v ∧ ciEq v name = true)) := by
  unfold claimProviderPred
  rw [Bool.or_eq_true, List.any_eq_true]
  apply or_congr
  · cases hp : p.provider <;> simp
  · constructor
    · rintro ⟨it, hit, hm⟩
      cases hv : it.vendor with
      | none => rw [hv] at hm; exact absurd hm (by simp)
      | some v => exact ⟨it, hit, v, hv, by rwa [hv] at hm⟩
    · rintro ⟨it, hit, v, hv, hm⟩
      exact ⟨it, hit, by rw [hv]; exact hm⟩

/-- C5: for a non-empty caller-supplied provider name, the provider filter
keeps exactly the bookings whose resolved provider matches the name
case-insensitively or that have some line item whose vendor matches it
case-insensitively. -/
theorem c5_provider_filter_union (pfx name : String) (hn : ¬name.isEmpty)
    (store : Nat → Option ProductInfo) (orders : List RawOrder) :
    getOrdersByProvider pfx store name orders =
      (getEventOrders pfx store orders none).filter (claimProviderPred name) ∧
    ∀ p ∈ getEventOrders pfx store orders none,
      (p ∈ getOrdersByProvider pfx store name orders ↔
        ((∃ pr, p.provider = some pr ∧ ciEq pr name = true) ∨
         (∃ it ∈ p.lineItems, ∃ v, it.vendor = some v ∧ ciEq v name = true))) := by
  have hn' : name ≠ "" := by
    intro h
    subst h
    exact hn rfl
  have hfe : ∀ p ∈ getEventOrders pfx store orders none,
      providerFilterPred name p = claimProviderPred name p := by
    intro p hp
    simp only [getEventOrders] at hp
    obtain ⟨o, -, rfl⟩ := List.mem_map.mp hp
    exact providerPred_eq_claimPred name hn' store o
  constructor
  · unfold getOrdersByProvider
    exact List.filter_congr hfe
  · intro p hp
    unfold getOrdersByProvider
    constructor
    · intro h
      exact (claimPred_iff name p).mp
        (by rw [← hfe p hp]; exact (List.mem_filter.mp h).2)
    · intro h
      exact List.mem_filter.mpr ⟨hp, by rw [hfe p hp]; exact (claimPred_iff name p).mpr h⟩

/-- C5 witness: the union filter at name `"llamas"` over a concrete order
set. -/
theorem c5_provider_filter_witness :
    getOrdersByProvider "__cow_" storeLlamas "llamas" [orderLlamas] =
      (getEventOrders "__cow_" storeLlamas [orderLlamas] none).filter (claimProviderPred "llamas") ∧
    ∀ p ∈ getEventOrders "__cow_" storeLlamas [orderLlamas] none,
      (p ∈ getOrdersByProvider "__cow_" storeLlamas "llamas" [orderLlamas] ↔
        ((∃ pr, p.provider = some pr ∧ ciEq pr "llamas" = true) ∨
         (∃ it ∈ p.lineItems, ∃ v, it.vendor = some v ∧ ciEq v "llamas" = true))) :=
  c5_provider_filter_union "__cow_" "llamas" (by decide) storeLlamas [orderLlamas]

/-! ## Claim C7 (confirmed): filter composition -/

/-- Membership under one optional filter field. -/
theorem applyOptFilter_mem (f : String → ParsedOrder → Bool) (v : Option String)
    (l : List ParsedOrder) (b : ParsedOrder) :
    b ∈ applyOptFilter f v l ↔ b ∈ l ∧ optPred f v b = true := by
  cases v with
  | none => simp [applyOptFilter, optPred]
  | some s =>
    by_cases hs : s.isEmpty
    · simp [applyOptFilter, optPred, hs]
    · simp [applyOptFilter, optPred, hs, List.mem_filter]

/-- One optional filter field preserves relative order. -/
theorem applyOptFilter_sublist (f : String → ParsedOrder → Bool) (v : Option String)
    (l : List ParsedOrder) : (applyOptFilter f v l).Sublist l := by
  cases v with
  | none => exact List.Sublist.refl l
  | some s =>
    by_cases hs : s.isEmpty
    · simp only [applyOptFilter, hs, if_true]
      exact List.Sublist.refl l
    · simp only [applyOptFilter, hs, if_false]
      exact List.filter_sublist l

/-- C7: with two or more filter fields set, the query result is the
intersection of the single-field results (AND semantics), it preserves the
relative order of the input sequence (it is a sublist — no sorting), and the
route's computation is exactly this filter pipeline over the fetched
booking sequence. -/
theorem c7_filter_composition (spec : FilterSpec) (bookings : List ParsedOrder)
    (_h2 : 2 ≤ fieldsSet spec) :
    (∀ b, b ∈ queryBookings spec bookings ↔
      (b ∈ queryBookings (onlyProvider spec) bookings ∧
       b ∈ queryBookings (onlyEventDate spec) bookings ∧
       b ∈ queryBookings (onlyDateFrom spec) bookings ∧
       b ∈ queryBookings (onlyDateTo spec) bookings)) ∧
    (queryBookings spec bookings).Sublist bookings ∧
    ∀ (pfx : String) (store : Nat → Option ProductInfo) (raws : List RawOrder),
      ordersRouteQuery pfx store spec raws =
        queryBookings spec (getEventOrders pfx store raws none) := by
  refine ⟨?_, ?_, ?_⟩
  · intro b
    simp only [queryBookings, applyOptFilter_mem, onlyProvider, onlyEventDate, onlyDateFrom,
      onlyDateTo]
    simp only [optPred]
    tauto
  · exact (applyOptFilter_sublist _ _ _).trans ((applyOptFilter_sublist _ _ _).trans
      ((applyOptFilter_sublist _ _ _).trans (applyOptFilter_sublist _ _ _)))
  · intro pfx store raws
    unfold ordersRouteQuery queryBookings getOrdersByProvider
    cases hp : spec.provider with
    | none => simp [hp, applyOptFilter]
    | some pv =>
      by_cases hs : pv.isEmpty <;> simp [hp, hs, applyOptFilter]

/-- C7 witness: a concrete two-field spec over a concrete booking set. -/
theorem c7_filter_composition_witness :
    2 ≤ fieldsSet specTwoFields ∧
    ((∀ b, b ∈ queryBookings specTwoFields (getEventOrders "__cow_" storeNone [orderSched] none) ↔
      (b ∈ queryBookings (onlyProvider specTwoFields) (getEventOrders "__cow_" storeNone [orderSched] none) ∧
       b ∈ queryBookings (onlyEventDate specTwoFields) (getEventOrders "__cow_" storeNone [orderSched] none) ∧
       b ∈ queryBookings (onlyDateFrom specTwoFields) (getEventOrders "__cow_" storeNone [orderSched] none) ∧
       b ∈ queryBookings (onlyDateTo specTwoFields) (getEventOrders "__cow_" storeNone [orderSched] none))) ∧
    (queryBookings specTwoFields (getEventOrders "__cow_" storeNone [orderSched] none)).Sublist
      (getEventOrders "__cow_" storeNone [orderSched] none) ∧
    ∀ (pfx : String) (store : Nat → Option ProductInfo) (raws : List RawOrder),
      ordersRouteQuery pfx store specTwoFields raws =
        queryBookings specTwoFields (getEventOrders pfx store raws none)) :=
  ⟨by decide, c7_filter_composition specTwoFields (getEventOrders "__cow_" storeNone [orderSched] none) (by decide)⟩

end ClubJoy
